import Mathlib

/-!
Verification development for the voice-chat front-end
(src/app/components/SpeechAIAssistantChatGpt.tsx, src/unnamed/part_000,
src/unnamed/part_001, src/app/api/chat/route.ts).

The TypeScript source is shallowly embedded: pure helpers become Lean
functions over List Char / String, the stateful aggregator and
orchestrator become explicit state-passing functions, JS exceptions
(JSON.parse, fetch failures) become Option / outcome datatypes, and the
browser TextDecoder is modelled by an explicit incremental UTF-8
decoder (WHATWG semantics).  Every definition is translated from the
source file and line range cited in its doc comment.
-/

/-! ## JS string primitives

The source manipulates JS strings with trim, split(/\s+/), replace,
toLowerCase and regexes.  We model the JS whitespace class \s and the
derived operations over List Char so that everything reduces in the
kernel. -/

/-- The JS regex class \s (WhiteSpace plus LineTerminator), used by
String.prototype.trim and by the \s occurrences in the source regexes. -/
def jsWsNamedChars : List Char :=
  [' ', '\t', '\n', '\r', '\x0b', '\x0c', ' ', ' ',
   ' ', ' ', ' ', ' ', '　', '﻿']

def jsWs (c : Char) : Bool :=
  jsWsNamedChars.contains c ||
  (decide (0x2000 ≤ c.val.toNat) && decide (c.val.toNat ≤ 0x200A))

/-- s.trim() on the character list. -/
def jsTrimList (cs : List Char) : List Char :=
  ((cs.dropWhile jsWs).reverse.dropWhile jsWs).reverse

/-- JS String.prototype.trim. -/
def jsTrim (s : String) : String := ⟨jsTrimList s.data⟩

/-- Whether the list s begins with the list p (helper for startsWith). -/
def strStarts : List Char → List Char → Bool
  | [], _ => true
  | _ :: _, [] => false
  | p :: ps, c :: cs => p == c && strStarts ps cs

/-- JS String.prototype.startsWith. -/
def jsStartsWith (s pat : String) : Bool := strStarts pat.data s.data

/-- JS String.prototype.toLowerCase (ASCII letters; the words compared in
the source are all ASCII). -/
def strToLower (s : String) : String := ⟨s.data.map Char.toLower⟩

/-- One pass of replace(/\s+/g, " "): every maximal whitespace run becomes
one space.  The Bool records whether the previous character was
whitespace. -/
def collapseWsAux : Bool → List Char → List Char
  | _, [] => []
  | prevWs, c :: rest =>
    if jsWs c then
      if prevWs then collapseWsAux true rest
      else ' ' :: collapseWsAux true rest
    else c :: collapseWsAux false rest

/-- src/unnamed/part_001 line 924:
normalize = (s) => s.trim().replace(/\s+/g, " ").toLowerCase() -/
def normalizeFinal (s : String) : String :=
  strToLower ⟨collapseWsAux false (jsTrimList s.data)⟩

/-- t.split(/\s+/)[0] for an already trimmed t: the leading run of
non-whitespace characters. -/
def firstToken (t : String) : String :=
  ⟨t.data.takeWhile (fun c => !(jsWs c))⟩

/-! ## Question detection (two variants in the source) -/

/-- The fixed interrogative/auxiliary lead-word set shared by both
endsWithQuestion variants. -/
def questionLeadWords : List String :=
  ["what", "why", "how", "when", "where", "which", "who", "whom", "whose",
   "can", "could", "should", "would", "is", "are", "do", "does", "did",
   "will", "may", "might"]

/-- src/unnamed/part_001 lines 926-955 (useSpeechRecognition variant):
trim; empty gives false; else first whitespace token, lower-cased, must be
a lead word and the trimmed length must exceed 10. -/
def endsWithQuestionRec (text : String) : Bool :=
  let t := jsTrim text
  if t = "" then false
  else questionLeadWords.contains (strToLower (firstToken t)) && decide (t.length > 10)

/-- The three terminal characters of the component variant's regex
[?？！]$ (ASCII question mark, fullwidth question mark, fullwidth
exclamation mark). -/
def qTerminalChars : List Char := ['?', '？', '！']

/-- Whether the trimmed text matches /[?？！]$/. -/
def endsInQTerminal (t : String) : Bool :=
  match t.data.getLast? with
  | some c => qTerminalChars.contains c
  | none => false

/-- src/app/components/SpeechAIAssistantChatGpt.tsx lines 87-117
(component variant): additionally returns true when the trimmed text ends
in ?, ？ or ！. -/
def endsWithQuestionCmp (text : String) : Bool :=
  let t := jsTrim text
  if t = "" then false
  else if endsInQTerminal t then true
  else questionLeadWords.contains (strToLower (firstToken t)) && decide (t.length > 10)

/-! ## RecentFinalsRing and the utterance aggregator
(src/unnamed/part_001, useSpeechRecognition) -/

/-- src/unnamed/part_001 lines 978-986: isDuplicateFinal.  Normalizes s,
reports whether the key is already in the ring; on a miss pushes the key
and, past 20 entries, shifts off the oldest (front). -/
def isDuplicateFinal (ring : List String) (s : String) : Bool × List String :=
  let key := normalizeFinal s
  if ring.contains key then (true, ring)
  else
    let pushed := ring ++ [key]
    (false, if pushed.length > 20 then pushed.tail else pushed)

/-- One recognizer result: isFinal flag plus the first alternative's
transcript (none models result[0] being absent, skipped by the source). -/
structure SpeechResult where
  isFinal : Bool
  alt : Option String
deriving DecidableEq

/-- One onresult callback payload: resultIndex cursor plus the result
list. -/
structure SpeechEvent where
  resultIndex : Nat
  results : List SpeechResult
deriving DecidableEq

/-- src/unnamed/part_001 lines 1014-1020: the partition loop of
rec.onresult, concatenating final transcripts into finalChunk and
non-final ones into interim, starting at resultIndex. -/
def partitionEvent (ev : SpeechEvent) : String × String :=
  (ev.results.drop ev.resultIndex).foldl
    (fun acc r =>
      match r.alt with
      | none => acc
      | some t => if r.isFinal then (acc.1, acc.2 ++ t) else (acc.1 ++ t, acc.2))
    ("", "")

/-- Aggregator state of useSpeechRecognition: the interim preview, the
pending aggregation, the dedupe ring, the armed finalization timer
(carrying the cleaned chunk), and the observable outputs (onFinal and
onQuestion payloads, in order). -/
structure AggState where
  interimText : String
  pendingFinalUser : String
  recentFinals : List String
  timer : Option String
  committedFinals : List String
  questions : List String
deriving DecidableEq

/-- src/unnamed/part_001 lines 1010-1051: the rec.onresult handler up to
arming the timer.  Publishes interim immediately; a non-empty final chunk
is trimmed and, if still non-empty, replaces any armed timer
(clearTimeout + setTimeout); nothing is committed here. -/
def handleResult (st : AggState) (ev : SpeechEvent) : AggState :=
  let p := partitionEvent ev
  let st1 := { st with interimText := p.1 }
  if p.2 = "" then st1
  else
    let clean := jsTrim p.2
    if clean = "" then st1
    else { st1 with timer := some clean }

/-- src/unnamed/part_001 lines 1034-1050: the finalization timer body.
Duplicate keys are discarded silently; otherwise the ring is updated, the
raw chunk joins the pending text with a single space, onFinal fires with
the chunk, and onQuestion fires when the complete text reads like a
question. -/
def fireTimer (st : AggState) : AggState :=
  match st.timer with
  | none => st
  | some clean =>
    let d := isDuplicateFinal st.recentFinals clean
    if d.1 then { st with timer := none }
    else
      let completeText :=
        if st.pendingFinalUser = "" then clean
        else jsTrim (jsTrim st.pendingFinalUser ++ " " ++ clean)
      { st with
        timer := none
        recentFinals := d.2
        pendingFinalUser := completeText
        committedFinals := st.committedFinals ++ [clean]
        questions :=
          if endsWithQuestionRec completeText then st.questions ++ [completeText]
          else st.questions }

/-- A burst of onresult callbacks inside one debounce window (each new
final chunk restarts the silence timer before it can fire). -/
def observeSeq (st : AggState) (evs : List SpeechEvent) : AggState :=
  evs.foldl handleResult st

/-- One callback followed by its timer firing uninterrupted. -/
def feedFinal (st : AggState) (ev : SpeechEvent) : AggState :=
  fireTimer (handleResult st ev)

/-! ## JSON values and JSON.parse

The stream decoders first try JSON.parse on each line.  We embed a JSON
value type and a recursive-descent parser following the JSON grammar
that JSON.parse implements; a parse failure (a JS exception) is
Option.none. -/

/-- A parsed JSON value.  Numbers keep their literal parts (sign, integer
digits, fraction digits, exponent sign and digits); the decoders only
ever test numbers for truthiness. -/
inductive Json where
  | null
  | bool (b : Bool)
  | num (neg : Bool) (intDigits : List Char) (fracDigits : List Char)
        (expNeg : Bool) (expDigits : List Char)
  | str (s : String)
  | arr (items : List Json)
  | obj (fields : List (String × Json))

/-- The opening brace character (0x7B). -/
def lbraceChar : Char := Char.ofNat 123

/-- The closing brace character (0x7D). -/
def rbraceChar : Char := Char.ofNat 125

/-- JSON insignificant whitespace (space, tab, line feed, carriage
return). -/
def jsonWsChar (c : Char) : Bool := ([' ', '\t', '\n', '\r'] : List Char).contains c

/-- Skip JSON whitespace. -/
def skipJsonWs (cs : List Char) : List Char := cs.dropWhile (fun c => jsonWsChar c)

/-- Value of a hex digit, if any. -/
def hexDigitVal (c : Char) : Option Nat :=
  let n := c.val.toNat
  if 48 ≤ n ∧ n ≤ 57 then some (n - 48)
  else if 97 ≤ n ∧ n ≤ 102 then some (n - 87)
  else if 65 ≤ n ∧ n ≤ 70 then some (n - 55)
  else none

/-- Body of a JSON string literal (after the opening quote): plain
characters, the short escapes, and \uXXXX with surrogate-pair combining.
A lone surrogate becomes U+FFFD (Lean Char cannot hold it; JS keeps the
lone surrogate, which none of the decoders ever produce or compare).
Raw control characters are a parse error, as in JSON.parse.  Fuel is the
remaining input length. -/
def parseJsonStringAux : Nat → List Char → List Char → Option (String × List Char)
  | 0, _, _ => none
  | _ + 1, _, [] => none
  | fuel + 1, acc, c :: rest =>
    if c == '"' then some (⟨acc.reverse⟩, rest)
    else if c == '\\' then
      match rest with
      | [] => none
      | e :: rest2 =>
        if e == '"' then parseJsonStringAux fuel ('"' :: acc) rest2
        else if e == '\\' then parseJsonStringAux fuel ('\\' :: acc) rest2
        else if e == '/' then parseJsonStringAux fuel ('/' :: acc) rest2
        else if e == 'b' then parseJsonStringAux fuel ('\x08' :: acc) rest2
        else if e == 'f' then parseJsonStringAux fuel ('\x0c' :: acc) rest2
        else if e == 'n' then parseJsonStringAux fuel ('\n' :: acc) rest2
        else if e == 'r' then parseJsonStringAux fuel ('\r' :: acc) rest2
        else if e == 't' then parseJsonStringAux fuel ('\t' :: acc) rest2
        else if e == 'u' then
          match rest2 with
          | h1 :: h2 :: h3 :: h4 :: rest3 =>
            match hexDigitVal h1, hexDigitVal h2, hexDigitVal h3, hexDigitVal h4 with
            | some a, some b, some c2, some d =>
              let n := a * 4096 + b * 256 + c2 * 16 + d
              if 0xD800 ≤ n ∧ n ≤ 0xDBFF then
                match rest3 with
                | '\\' :: 'u' :: g1 :: g2 :: g3 :: g4 :: rest4 =>
                  (match hexDigitVal g1, hexDigitVal g2, hexDigitVal g3, hexDigitVal g4 with
                   | some a2, some b2, some c3, some d2 =>
                     let m := a2 * 4096 + b2 * 256 + c3 * 16 + d2
                     if 0xDC00 ≤ m ∧ m ≤ 0xDFFF then
                       let cp := 0x10000 + (n - 0xD800) * 1024 + (m - 0xDC00)
                       parseJsonStringAux fuel (Char.ofNat cp :: acc) rest4
                     else parseJsonStringAux fuel ('�' :: acc) rest3
                   | _, _, _, _ => parseJsonStringAux fuel ('�' :: acc) rest3)
                | _ => parseJsonStringAux fuel ('�' :: acc) rest3
              else if 0xDC00 ≤ n ∧ n ≤ 0xDFFF then
                parseJsonStringAux fuel ('�' :: acc) rest3
              else parseJsonStringAux fuel (Char.ofNat n :: acc) rest3
            | _, _, _, _ => none
          | _ => none
        else none
    else if decide (c.val.toNat < 0x20) then none
    else parseJsonStringAux fuel (c :: acc) rest

/-- Exponent part of a JSON number literal (and literal assembly). -/
def parseJsonExpTail (neg : Bool) (intD fracD : List Char) (rest : List Char) :
    Option (Json × List Char) :=
  match rest with
  | e :: r =>
    if e == 'e' || e == 'E' then
      let (eneg, r2) :=
        match r with
        | '+' :: rr => (false, rr)
        | '-' :: rr => (true, rr)
        | _ => (false, r)
      let ds := r2.takeWhile Char.isDigit
      if ds.isEmpty then none
      else some (.num neg intD fracD eneg ds, r2.dropWhile Char.isDigit)
    else some (.num neg intD fracD false [], rest)
  | [] => some (.num neg intD fracD false [], [])

/-- Fraction part of a JSON number literal. -/
def parseJsonNumTail (neg : Bool) (intD : List Char) (rest : List Char) :
    Option (Json × List Char) :=
  match rest with
  | '.' :: r =>
    let ds := r.takeWhile Char.isDigit
    if ds.isEmpty then none
    else parseJsonExpTail neg intD ds (r.dropWhile Char.isDigit)
  | _ => parseJsonExpTail neg intD [] rest

/-- JSON number literal: -? (0 | [1-9][0-9]*) frac? exp?. -/
def parseJsonNumber (cs : List Char) : Option (Json × List Char) :=
  let (neg, cs1) :=
    match cs with
    | '-' :: r => (true, r)
    | _ => (false, cs)
  match cs1 with
  | c :: rest =>
    if c == '0' then parseJsonNumTail neg ['0'] rest
    else if c.isDigit then
      parseJsonNumTail neg (cs1.takeWhile Char.isDigit) (cs1.dropWhile Char.isDigit)
    else none
  | [] => none

mutual

/-- One JSON value (fuel-bounded recursive descent). -/
def parseJsonValue : Nat → List Char → Option (Json × List Char)
  | 0, _ => none
  | fuel + 1, cs =>
    match skipJsonWs cs with
    | [] => none
    | c :: rest =>
      if c == '"' then
        match parseJsonStringAux (rest.length + 1) [] rest with
        | some (s, r) => some (.str s, r)
        | none => none
      else if c == 't' then
        if strStarts ['r', 'u', 'e'] rest then some (.bool true, rest.drop 3) else none
      else if c == 'f' then
        if strStarts ['a', 'l', 's', 'e'] rest then some (.bool false, rest.drop 4) else none
      else if c == 'n' then
        if strStarts ['u', 'l', 'l'] rest then some (.null, rest.drop 3) else none
      else if c == lbraceChar then parseJsonObjBody fuel (skipJsonWs rest) true []
      else if c == '[' then parseJsonArrBody fuel (skipJsonWs rest) true []
      else parseJsonNumber (c :: rest)

/-- Object members after the opening brace (whitespace already
skipped); first is true before any member has been parsed. -/
def parseJsonObjBody : Nat → List Char → Bool → List (String × Json) →
    Option (Json × List Char)
  | 0, _, _, _ => none
  | fuel + 1, cs, first, acc =>
    match cs with
    | [] => none
    | c :: rest =>
      if c == rbraceChar then
        if first then some (.obj acc.reverse, rest) else none
      else
        let csK :=
          if first then c :: rest
          else if c == ',' then skipJsonWs rest
          else []
        match csK with
        | '"' :: kr =>
          match parseJsonStringAux (kr.length + 1) [] kr with
          | some (k, afterK) =>
            (match skipJsonWs afterK with
             | ':' :: vr =>
               (match parseJsonValue fuel vr with
                | some (v, afterV) =>
                  (match skipJsonWs afterV with
                   | c2 :: r2 =>
                     if c2 == rbraceChar then some (.obj ((k, v) :: acc).reverse, r2)
                     else if c2 == ',' then
                       parseJsonObjBody fuel (c2 :: r2) false ((k, v) :: acc)
                     else none
                   | [] => none)
                | none => none)
             | _ => none)
          | none => none
        | _ => none

/-- Array items after the opening bracket (whitespace already skipped). -/
def parseJsonArrBody : Nat → List Char → Bool → List Json → Option (Json × List Char)
  | 0, _, _, _ => none
  | fuel + 1, cs, first, acc =>
    match cs with
    | [] => none
    | c :: rest =>
      if c == ']' then
        if first then some (.arr acc.reverse, rest) else none
      else
        let csV :=
          if first then c :: rest
          else if c == ',' then rest
          else []
        match csV with
        | [] => none
        | _ =>
          match parseJsonValue fuel csV with
          | some (v, afterV) =>
            (match skipJsonWs afterV with
             | c2 :: r2 =>
               if c2 == ']' then some (.arr (v :: acc).reverse, r2)
               else if c2 == ',' then parseJsonArrBody fuel (c2 :: r2) false (v :: acc)
               else none
             | [] => none)
          | none => none

end

/-- JSON.parse: parse one value and require only whitespace to remain;
any failure is the thrown-and-caught exception, i.e. none. -/
def jsonParse (s : String) : Option Json :=
  match parseJsonValue (2 * s.length + 8) s.data with
  | some (v, rest) => if (skipJsonWs rest).isEmpty then some v else none
  | none => none

/-! ## JS expression semantics used by the delta-field chains -/

/-- A JS value as seen by the delta extraction chains: undefined, or a
parsed JSON value (null is Json.null). -/
inductive JSVal where
  | undefined
  | val (j : Json)

/-- All integer and fraction digits are zero. -/
def allZeroDigits (ds : List Char) : Bool := ds.all (fun c => c == '0')

/-- JS truthiness of a parsed JSON value: null, false, 0 and "" are
falsy; objects and arrays are truthy. -/
def jsonTruthy : Json → Bool
  | .null => false
  | .bool b => b
  | .num _ i f _ _ => !(allZeroDigits i && allZeroDigits f)
  | .str s => !(s == "")
  | .arr _ => true
  | .obj _ => true

/-- JS truthiness of a JSVal (undefined is falsy). -/
def jsvTruthy : JSVal → Bool
  | .undefined => false
  | .val j => jsonTruthy j

/-- Nullish (undefined or null), the test of the ?? operator. -/
def jsvNullish : JSVal → Bool
  | .undefined => true
  | .val .null => true
  | .val _ => false

/-- a ?? b. -/
def jsvCoalesce (a b : JSVal) : JSVal := if jsvNullish a then b else a

/-- a || b. -/
def jsvOr (a b : JSVal) : JSVal := if jsvTruthy a then a else b

/-- a && b. -/
def jsvAnd (a b : JSVal) : JSVal := if jsvTruthy a then b else a

/-- Property lookup in an object literal; JSON.parse builds objects left
to right, so a duplicated key keeps its last value. -/
def objGet : List (String × Json) → String → Option Json
  | [], _ => none
  | (k, v) :: rest, key =>
    match objGet rest key with
    | some r => some r
    | none => if k = key then some v else none

/-- evt?.k / evt.k: property access on a JS value; undefined on
non-objects and missing keys. -/
def jsvField (v : JSVal) (k : String) : JSVal :=
  match v with
  | .undefined => .undefined
  | .val (.obj fs) =>
    match objGet fs k with
    | some x => .val x
    | none => .undefined
  | .val _ => .undefined

/-- arr?.[0]: first element of a JS array value, else undefined. -/
def jsvIndex0 : JSVal → JSVal
  | .val (.arr (x :: _)) => .val x
  | _ => .undefined

/-! ## extractText (two variants) and the payload regexes -/

/-- src/app/components/SpeechAIAssistantChatGpt.tsx lines 327-339, step 1
of extractText: JSON.parse the payload and evaluate
evt?.delta ?? evt?.textDelta ?? evt?.value ?? evt?.content ??
(evt?.data && (evt.data.delta || evt.data.textDelta)) ?? "";
only a non-empty string result is returned (typeof check). -/
def jsonDeltaCmp (payload : String) : Option String :=
  match jsonParse payload with
  | none => none
  | some evt =>
    let e := JSVal.val evt
    let dataPart :=
      jsvAnd (jsvField e "data")
        (jsvOr (jsvField (jsvField e "data") "delta")
               (jsvField (jsvField e "data") "textDelta"))
    let delta :=
      jsvCoalesce (jsvField e "delta")
        (jsvCoalesce (jsvField e "textDelta")
          (jsvCoalesce (jsvField e "value")
            (jsvCoalesce (jsvField e "content")
              (jsvCoalesce dataPart (.val (.str ""))))))
    match delta with
    | .val (.str s) => if s = "" then none else some s
    | _ => none

/-- src/unnamed/part_001 lines 748-760, step 1 of the useStreamingAI
extractText: the same field chain but combined with || "" instead of a
final ?? ""; again only a non-empty string is returned. -/
def jsonDeltaHook (payload : String) : Option String :=
  match jsonParse payload with
  | none => none
  | some evt =>
    let e := JSVal.val evt
    let dataPart :=
      jsvAnd (jsvField e "data")
        (jsvOr (jsvField (jsvField e "data") "delta")
               (jsvField (jsvField e "data") "textDelta"))
    let chain :=
      jsvCoalesce (jsvField e "delta")
        (jsvCoalesce (jsvField e "textDelta")
          (jsvCoalesce (jsvField e "value")
            (jsvCoalesce (jsvField e "content") dataPart)))
    let delta := jsvOr chain (.val (.str ""))
    match delta with
    | .val (.str s) => if s = "" then none else some s
    | _ => none

/-- The shape test of /^"([\s\S]*)"$/ on a character list: an opening
quote, anything, a distinct closing quote; yields the inner text
(group 1). -/
def quotedShapeList (cs : List Char) : Option (List Char) :=
  match cs with
  | '"' :: rest =>
    if rest.getLast? == some '"' then some rest.dropLast else none
  | _ => none

/-- /^"([\s\S]*)"$/ on a string, yielding group 1. -/
def quotedShape (s : String) : Option String := (quotedShapeList s.data).map (⟨·⟩)

/-- s.slice(1, -1). -/
def sliceInner (s : String) : String := ⟨(s.data.drop 1).dropLast⟩

/-- src/app/components/SpeechAIAssistantChatGpt.tsx lines 314-322:
parseQuoted.  On the quoted shape, JSON.parse unescapes it (a JSON
document that begins with a quote is a string, so the non-string branch
cannot arise; we fall back to the raw inner text there, as the catch
does). -/
def parseQuoted (s : String) : Option String :=
  match quotedShape s with
  | none => none
  | some inner =>
    match jsonParse s with
    | some (.str t) => some t
    | some _ => some inner
    | none => some inner

/-- The match of /^\d+:\s*("([\s\S]*)")$/, yielding group 1 (the quoted
part, quotes included). -/
def matchIdxQuoted (s : String) : Option String :=
  let cs := s.data
  let ds := cs.takeWhile Char.isDigit
  if ds.isEmpty then none
  else
    match cs.drop ds.length with
    | ':' :: rest =>
      let rest2 := rest.dropWhile jsWs
      match quotedShapeList rest2 with
      | some _ => some ⟨rest2⟩
      | none => none
    | _ => none

/-- A character of the plain-prose class
[\w"“”‘’().,:;!?%\-–—\s] (\w is ASCII alphanumeric or underscore). -/
def prosePunctChars : List Char :=
  ['"', '“', '”', '‘', '’', '(', ')', '.', ',', ':', ';',
   '!', '?', '%', '-', '–', '—']

def proseChar (c : Char) : Bool :=
  c.isAlphanum || c == '_' || prosePunctChars.contains c || jsWs c

/-- /^[\w"“”‘’().,:;!?%\-–—\s]+$/.test(payload): non-empty and all
characters in the class. -/
def isProse (s : String) : Bool := !s.data.isEmpty && s.data.all proseChar

/-- /^[fed]:\s*\{/.test(payload): a metadata frame marker (component
variant only). -/
def isMetaFrame (s : String) : Bool :=
  match s.data with
  | c :: ':' :: rest =>
    (c == 'f' || c == 'e' || c == 'd') &&
      ((rest.dropWhile jsWs).head? == some lbraceChar)
  | _ => false

/-- Steps 4-5 of the component extractText (lines 352-361): drop
metadata frames, pass plain prose through, otherwise yield nothing. -/
def extractTextCmpTailSteps (payload : String) : String :=
  if isMetaFrame payload then ""
  else if isProse payload then payload
  else ""

/-- Step 3 of the component extractText (lines 348-350): a bare quoted
string, if parseQuoted yields a truthy (non-empty) result. -/
def extractTextCmpStep3 (payload : String) : String :=
  match parseQuoted payload with
  | some s => if s = "" then extractTextCmpTailSteps payload else s
  | none => extractTextCmpTailSteps payload

/-- src/app/components/SpeechAIAssistantChatGpt.tsx lines 325-362:
extractText.  Each step falls through unless it produces a truthy
(non-empty) string. -/
def extractTextCmp (payload : String) : String :=
  match jsonDeltaCmp payload with
  | some d => d
  | none =>
    match matchIdxQuoted payload with
    | some g =>
      (match parseQuoted g with
       | some s => if s = "" then extractTextCmpStep3 payload else s
       | none => extractTextCmpStep3 payload)
    | none => extractTextCmpStep3 payload

/-- src/unnamed/part_001 lines 747-784: the useStreamingAI extractText.
Unlike the component variant, once the index-prefixed or bare quoted
pattern matches it returns unconditionally (even an empty unescaped
string), and there is no metadata-frame rule. -/
def extractTextHook (payload : String) : String :=
  match jsonDeltaHook payload with
  | some d => d
  | none =>
    match matchIdxQuoted payload with
    | some g =>
      (match jsonParse g with
       | some (.str t) => t
       | some _ => sliceInner g
       | none => sliceInner g)
    | none =>
      match quotedShape payload with
      | some inner =>
        (match jsonParse payload with
         | some (.str t) => t
         | some _ => inner
         | none => inner)
      | none => if isProse payload then payload else ""

/-! ## Newline framing of the streamed response -/

/-- buf.search(/\r?\n/) together with the slices around it: split the
buffer at the first line terminator (\n, or \r\n taken as one), yielding
the line before it and the remainder after it. -/
def findLineBreak : List Char → Option (List Char × List Char)
  | [] => none
  | '\r' :: '\n' :: rest => some ([], rest)
  | '\n' :: rest => some ([], rest)
  | c :: rest => (findLineBreak rest).map (fun p => (c :: p.1, p.2))

/-- src/app/components/SpeechAIAssistantChatGpt.tsx lines 376-385: the
per-line handling of the streamAI read loop — trim, skip empty, strip a
data: marker and re-trim, skip the [DONE] sentinel, extract the delta,
keep it only when non-empty. -/
def processLineCmp (line : String) : Option String :=
  let raw := jsTrim line
  if raw = "" then none
  else
    let raw2 := if jsStartsWith raw "data:" then jsTrim ⟨raw.data.drop 5⟩ else raw
    if raw2 = "" then none
    else if raw2 = "[DONE]" then none
    else
      let t := extractTextCmp raw2
      if t = "" then none else some t

/-- src/unnamed/part_001 lines 824-835: the same per-line handling in the
useStreamingAI read loop (hook extractText). -/
def processLineHook (line : String) : Option String :=
  let raw := jsTrim line
  if raw = "" then none
  else
    let raw2 := if jsStartsWith raw "data:" then jsTrim ⟨raw.data.drop 5⟩ else raw
    if raw2 = "" then none
    else if raw2 = "[DONE]" then none
    else
      let t := extractTextHook raw2
      if t = "" then none else some t

/-- The inner while loop of a read iteration: cut complete lines off the
buffer, process each, keep the unterminated remainder.  Parametrised by
the per-line handler; fuel bounds the number of cuts (each cut consumes
at least the terminator, so buffer length suffices). -/
def processBufAux (handler : String → Option String) :
    Nat → List Char → List String × List Char
  | 0, cs => ([], cs)
  | fuel + 1, cs =>
    match findLineBreak cs with
    | none => ([], cs)
    | some (line, rest) =>
      let r := processBufAux handler fuel rest
      match handler ⟨line⟩ with
      | some t => (t :: r.1, r.2)
      | none => r

/-- All complete lines of the buffer, processed in order, plus the
leftover. -/
def processBuf (handler : String → Option String) (cs : List Char) :
    List String × List Char :=
  processBufAux handler (cs.length + 1) cs

/-- src/app/components/SpeechAIAssistantChatGpt.tsx lines 389-397: the
flush of a final unterminated line after the stream ends (the component
checks [DONE] after stripping data:). -/
def tailFlushCmp (buf : List Char) : List String :=
  let tail := jsTrim ⟨buf⟩
  if tail = "" then []
  else
    let payload := if jsStartsWith tail "data:" then jsTrim ⟨tail.data.drop 5⟩ else tail
    if payload = "" then []
    else if payload = "[DONE]" then []
    else
      let t := extractTextCmp payload
      if t = "" then [] else [t]

/-- src/unnamed/part_001 lines 838-843: the hook's flush of a final
unterminated line (the hook checks [DONE] before stripping data:, and
always runs extractText on the stripped payload). -/
def tailFlushHook (buf : List Char) : List String :=
  let tail := jsTrim ⟨buf⟩
  if tail = "" then []
  else if tail = "[DONE]" then []
  else
    let payload := if jsStartsWith tail "data:" then jsTrim ⟨tail.data.drop 5⟩ else tail
    let t := extractTextHook payload
    if t = "" then [] else [t]

/-- The component read loop driven with already-decoded text chunks:
fold each chunk into the buffer, emit the deltas of every complete line,
then flush the tail.  (Used for the round-trip claims, where the chunks
are plain ASCII.) -/
def runDecodeTextCmp (chunks : List String) : List String :=
  let r := chunks.foldl
    (fun acc chunk =>
      let p := processBuf processLineCmp (acc.2 ++ chunk.data)
      (acc.1 ++ p.1, p.2))
    (([] : List String), ([] : List Char))
  r.1 ++ tailFlushCmp r.2

/-- The hook read loop driven with already-decoded text chunks. -/
def runDecodeTextHook (chunks : List String) : List String :=
  let r := chunks.foldl
    (fun acc chunk =>
      let p := processBuf processLineHook (acc.2 ++ chunk.data)
      (acc.1 ++ p.1, p.2))
    (([] : List String), ([] : List Char))
  r.1 ++ tailFlushHook r.2

/-! ## The browser TextDecoder (WHATWG incremental UTF-8 decoding)

streamAI and useStreamingAI call decoder.decode(value, \x7bstream: true\x7d),
carrying an incomplete multi-byte sequence over to the next chunk; the
getAIResponse loop in src/unnamed/part_000 (and part_001's generateAnswer)
call decoder.decode(value) with a fresh decode per chunk, which flushes
an incomplete sequence as U+FFFD.  The decoder state is the pending
bytes of one incomplete sequence. -/

/-- A UTF-8 continuation byte (0x80-0xBF). -/
def contB (b : Nat) : Bool := decide (0x80 ≤ b) && decide (b ≤ 0xBF)

/-- One byte arriving with no pending sequence: ASCII is emitted, a
valid lead byte becomes pending, anything else is an error replacement. -/
def utf8StepEmpty (b : Nat) : List Nat × List Char :=
  if b < 0x80 then ([], [Char.ofNat b])
  else if 0xC2 ≤ b ∧ b ≤ 0xDF then ([b], [])
  else if 0xE0 ≤ b ∧ b ≤ 0xEF then ([b], [])
  else if 0xF0 ≤ b ∧ b ≤ 0xF4 then ([b], [])
  else ([], ['�'])

/-- The WHATWG bounds of the first continuation byte after the special
lead bytes E0, ED, F0, F4 (excluding overlongs and surrogates). -/
def contRangeOk (b0 b : Nat) : Bool :=
  if b0 = 0xE0 then decide (0xA0 ≤ b) && decide (b ≤ 0xBF)
  else if b0 = 0xED then decide (0x80 ≤ b) && decide (b ≤ 0x9F)
  else if b0 = 0xF0 then decide (0x90 ≤ b) && decide (b ≤ 0xBF)
  else if b0 = 0xF4 then decide (0x80 ≤ b) && decide (b ≤ 0x8F)
  else contB b

/-- One byte of WHATWG UTF-8 decoding: pending bytes so far, next byte;
yields the new pending bytes and the emitted characters.  On a malformed
byte the replacement character is emitted and the byte is reprocessed
from the empty state, as the standard prescribes. -/
def utf8Step (pend : List Nat) (b : Nat) : List Nat × List Char :=
  match pend with
  | [] => utf8StepEmpty b
  | [b0] =>
    if b0 ≤ 0xDF then
      if contB b then ([], [Char.ofNat ((b0 - 0xC0) * 64 + (b - 0x80))])
      else
        let r := utf8StepEmpty b
        (r.1, '�' :: r.2)
    else
      if contRangeOk b0 b then ([b0, b], [])
      else
        let r := utf8StepEmpty b
        (r.1, '�' :: r.2)
  | [b0, b1] =>
    if b0 ≤ 0xEF then
      if contB b then
        ([], [Char.ofNat ((b0 - 0xE0) * 4096 + (b1 - 0x80) * 64 + (b - 0x80))])
      else
        let r := utf8StepEmpty b
        (r.1, '�' :: r.2)
    else
      if contB b then ([b0, b1, b], [])
      else
        let r := utf8StepEmpty b
        (r.1, '�' :: r.2)
  | [b0, b1, b2] =>
    if contB b then
      ([], [Char.ofNat ((b0 - 0xF0) * 262144 + (b1 - 0x80) * 4096 +
                        (b2 - 0x80) * 64 + (b - 0x80))])
    else
      let r := utf8StepEmpty b
      (r.1, '�' :: r.2)
  | _ => ([], [])

/-- Decode one chunk of bytes from a given pending state (the body of
decode(value, \x7bstream: true\x7d)): the new pending state and the emitted
characters. -/
def utf8DecodeChunk (pend : List Nat) (bytes : List Nat) : List Nat × List Char :=
  bytes.foldl
    (fun acc b =>
      let r := utf8Step acc.1 b
      (r.1, acc.2 ++ r.2))
    (pend, [])

/-- The UTF-8 encoding of one character. -/
def utf8EncodeChar (c : Char) : List Nat :=
  let n := c.val.toNat
  if n < 0x80 then [n]
  else if n < 0x800 then [0xC0 + n / 64, 0x80 + n % 64]
  else if n < 0x10000 then
    [0xE0 + n / 4096, 0x80 + (n / 64) % 64, 0x80 + n % 64]
  else
    [0xF0 + n / 262144, 0x80 + (n / 4096) % 64, 0x80 + (n / 64) % 64, 0x80 + n % 64]

/-- The UTF-8 encoding of a string (the bytes the response body
carries). -/
def utf8Encode (s : String) : List Nat := (s.data.map utf8EncodeChar).flatten

/-- decoder.decode(c1, \x7bstream: true\x7d) then decoder.decode(c2,
\x7bstream: true\x7d): the two decoded pieces concatenated, carrying the
pending state across chunks (as the streamAI / useStreamingAI read loops
do). -/
def streamDecode2 (l1 l2 : List Nat) : String :=
  let r1 := utf8DecodeChunk [] l1
  let r2 := utf8DecodeChunk r1.1 l2
  ⟨r1.2 ++ r2.2⟩

/-- decoder.decode(value) on a whole buffer with stream: true and no
unfinished tail: the text of one chunk. -/
def decodeOneShot (l : List Nat) : String := ⟨(utf8DecodeChunk [] l).2⟩

/-- decoder.decode(value) without the stream option (the part_000
getAIResponse and part_001 generateAnswer loops): decode and flush, an
incomplete trailing sequence becoming one replacement character. -/
def decodeNoStreamJS (l : List Nat) : String :=
  let r := utf8DecodeChunk [] l
  ⟨r.2 ++ (if r.1.isEmpty then [] else ['�'])⟩

/-! ## Conversation orchestrator (SpeechAIAssistantChatGpt.tsx) -/

/-- A chat role. -/
inductive Role where
  | system
  | user
  | assistant
deriving DecidableEq

/-- One conversation turn (the ts timestamp is wall-clock time and is
not modelled). -/
structure ChatTurn where
  role : Role
  content : String
deriving DecidableEq

/-- src/app/components/SpeechAIAssistantChatGpt.tsx line 72. -/
def SYSTEM_PROMPT : String :=
  "Helpful AI tech assistant, concise, correct Indian English errors."

/-- Orchestrator state of the SpeechAIAssistant component: the busy
flag, the interim and pending speech buffers, the transcript, the ref
holding the index of the open assistant turn (none models -1), and
whether an abort controller is installed. -/
structure OrchState where
  isAnswering : Bool
  interimText : String
  pendingFinalUser : String
  transcript : List ChatTurn
  assistantIndex : Option Nat
  controllerSet : Bool
deriving DecidableEq

/-- src/app/components/SpeechAIAssistantChatGpt.tsx lines 297-311: the
append closure — route a non-empty delta into the turn at
assistantIndexRef, falling back to the last turn if it is an assistant
turn, else index 0 (the Math.max(0, map-pop ?? length - 1) expression). -/
def appendDelta (st : OrchState) (text : String) : OrchState :=
  if text = "" then st
  else
    let idx :=
      match st.assistantIndex with
      | some i => i
      | none =>
        let v : Int :=
          match st.transcript.getLast? with
          | none => (st.transcript.length : Int) - 1
          | some t =>
            if t.role = Role.assistant then (st.transcript.length : Int) - 1 else -1
        (max 0 v).toNat
    { st with
      transcript :=
        st.transcript.modify (fun t => { t with content := t.content ++ text }) idx }

/-- The fate of the fetch to /api/chat, as observed by streamAI: a bad
response or network failure (the thrown error), a successful body read
to completion delivering byte chunks, or a body whose read number k
rejects with AbortError because the user aborted the controller. -/
inductive CallOutcome where
  | failure
  | success (chunks : List (List Nat))
  | abortedAt (k : Nat) (chunks : List (List Nat))

/-- The read loop of streamAI over byte chunks, threading the
TextDecoder pending state and the line buffer and collecting deltas;
an abort budget of some k makes the k-th read reject (AbortError), after
which nothing more is read or emitted.  Returns the deltas and the
remaining unterminated buffer. -/
def readLoopCmp : (List String × List Nat × List Char) → List (List Nat) →
    Option Nat → List String × List Char
  | acc, _, some 0 => (acc.1, acc.2.2)
  | acc, [], _ => (acc.1, acc.2.2)
  | acc, c :: cs, budget =>
    let d := utf8DecodeChunk acc.2.1 c
    let p := processBuf processLineCmp (acc.2.2 ++ d.2)
    readLoopCmp (acc.1 ++ p.1, d.1, p.2) cs (budget.map (· - 1))

/-- src/app/components/SpeechAIAssistantChatGpt.tsx lines 267-404:
streamAI.  Sets the busy flag and installs a controller; on a bad
response it throws (no catch — the rejection propagates to the caller)
with the finally clearing the flag and the controller; on success it
opens an empty assistant turn, routes every delta into it, flushes the
tail, and the finally clears the flag; an abort mid-read stops all
further appends, the finally again clearing the flag. -/
def streamAICall (st : OrchState) (oc : CallOutcome) : OrchState :=
  let st1 := { st with isAnswering := true, controllerSet := true }
  match oc with
  | .failure => { st1 with isAnswering := false, controllerSet := false }
  | .success chunks =>
    let st2 :=
      { st1 with
        transcript := st1.transcript ++ [{ role := Role.assistant, content := "" }]
        assistantIndex := some st1.transcript.length }
    let r := readLoopCmp ([], [], []) chunks none
    let deltas := r.1 ++ tailFlushCmp r.2
    let st3 := deltas.foldl appendDelta st2
    { st3 with isAnswering := false, controllerSet := false }
  | .abortedAt k chunks =>
    let st2 :=
      { st1 with
        transcript := st1.transcript ++ [{ role := Role.assistant, content := "" }]
        assistantIndex := some st1.transcript.length }
    let r := readLoopCmp ([], [], []) chunks (some k)
    let st3 := r.1.foldl appendDelta st2
    { st3 with isAnswering := false, controllerSet := false }

/-- src/app/components/SpeechAIAssistantChatGpt.tsx lines 407-440:
answerNow.  A busy guard returns immediately; otherwise the user text is
assembled from the override or the pending buffer (plus the interim
snapshot on a manual trigger), and if non-empty a user turn is shown,
the buffers are reset, and the compact context for the remote call is
built (system prompt, last 12 non-system turns, the user text).  Returns
the new state and the request issued, if any. -/
def answerNow (st : OrchState) (textOverride : Option String) :
    OrchState × Option (List ChatTurn) :=
  if st.isAnswering then (st, none)
  else
    let snapshotInterim := jsTrim st.interimText
    let overrideTrim :=
      match textOverride with
      | some t => jsTrim t
      | none => ""
    let userText0 :=
      if overrideTrim = "" then jsTrim st.pendingFinalUser else overrideTrim
    let overrideFalsy :=
      match textOverride with
      | none => true
      | some t => t = ""
    let userText :=
      if overrideFalsy && decide (snapshotInterim ≠ "") then
        if userText0 = "" then snapshotInterim else userText0 ++ " " ++ snapshotInterim
      else userText0
    if userText = "" then (st, none)
    else
      let st1 :=
        { st with
          transcript := st.transcript ++ [{ role := Role.user, content := userText }]
          interimText := ""
          pendingFinalUser := "" }
      let base := st.transcript.filter (fun m => m.role ≠ Role.system)
      let recent := base.drop (base.length - 12)
      let msgs :=
        ({ role := Role.system, content := SYSTEM_PROMPT } : ChatTurn) ::
          recent ++ [{ role := Role.user, content := userText }]
      (st1, some msgs)

/-! ## useStreamingAI hook state (src/unnamed/part_001) -/

/-- The hook's own state: the isAnswering flag and whether controllerRef
holds a controller. -/
structure HookState where
  isAnswering : Bool
  controllerSet : Bool
deriving DecidableEq

/-- src/unnamed/part_001 lines 786-790: abort — abort and drop the
controller and clear the busy flag, synchronously. -/
def hookAbort (_ : HookState) : HookState :=
  { isAnswering := false, controllerSet := false }

/-- The read loop of the hook (extractTextHook lines). -/
def readLoopHook : (List String × List Nat × List Char) → List (List Nat) →
    Option Nat → List String × List Char
  | acc, _, some 0 => (acc.1, acc.2.2)
  | acc, [], _ => (acc.1, acc.2.2)
  | acc, c :: cs, budget =>
    let d := utf8DecodeChunk acc.2.1 c
    let p := processBuf processLineHook (acc.2.2 ++ d.2)
    readLoopHook (acc.1 ++ p.1, d.1, p.2) cs (budget.map (· - 1))

/-- src/unnamed/part_001 lines 792-854: stream.  The busy guard returns
with nothing done; a failure throws into the catch (onError) with the
finally clearing flag and controller; success and abort mirror
streamAICall but deliver deltas through onAssistantDelta, which we
return as a list. -/
def hookStream (hs : HookState) (oc : CallOutcome) : HookState × List String :=
  if hs.isAnswering then (hs, [])
  else
    match oc with
    | .failure => ({ isAnswering := false, controllerSet := false }, [])
    | .success chunks =>
      let r := readLoopHook ([], [], []) chunks none
      ({ isAnswering := false, controllerSet := false }, r.1 ++ tailFlushHook r.2)
    | .abortedAt k chunks =>
      let r := readLoopHook ([], [], []) chunks (some k)
      ({ isAnswering := false, controllerSet := false }, r.1)

/-! ## VoiceAssistant generateAnswer (src/unnamed/part_001 lines 197-336) -/

/-- One conversation entry of the VoiceAssistant component (timestamp
not modelled). -/
structure ConvEntry where
  isUser : Bool
  content : String
deriving DecidableEq

/-- VoiceAssistant state touched by generateAnswer. -/
structure VAState where
  conversationHistory : List ConvEntry
  lastAnswer : String
  streamingAnswer : String
  isStreaming : Bool
  apiKey : String
deriving DecidableEq

/-- The fate of the OpenAI completions call in generateAnswer. -/
inductive VAOutcome where
  | ok (chunks : List (List Nat))
  | httpFail
  | netFail
  | abortError

/-- src/unnamed/part_001 lines 322-323: the synthetic assistant error
message. -/
def vaErrorMsg : String :=
  "Sorry, I encountered an error connecting to the AI service. Please check your API key and try again."

/-- parsed.choices?.[0]?.delta?.content, kept only when truthy
(lines 297-304). -/
def vaExtractDelta (data : String) : Option String :=
  match jsonParse data with
  | some j =>
    (match jsvField (jsvIndex0 (jsvField (.val j) "choices")) "delta" with
     | d =>
       match jsvField d "content" with
       | .val (.str c) => if c = "" then none else some c
       | _ => none)
  | none => none

/-- chunk.split("\n"). -/
def splitOnNl : List Char → List (List Char)
  | [] => [[]]
  | '\n' :: rest => [] :: splitOnNl rest
  | c :: rest =>
    match splitOnNl rest with
    | l :: ls => (c :: l) :: ls
    | [] => [[c]]

/-- src/unnamed/part_001 lines 268-308: the per-line loop of one chunk —
only data:-prefixed lines count; [DONE] finishes the stream (commit the
full response to the history and stop), other payloads contribute their
delta content.  Returns the state, the accumulated full response, and
whether [DONE] was hit. -/
def vaLines : VAState → String → List (List Char) → VAState × String × Bool
  | st, full, [] => (st, full, false)
  | st, full, l :: rest =>
    let line : String := ⟨l⟩
    if jsStartsWith line "data: " then
      let data : String := ⟨l.drop 6⟩
      if data = "[DONE]" then
        let st2 :=
          { st with
            isStreaming := false
            lastAnswer := full
            streamingAnswer := ""
            conversationHistory := st.conversationHistory ++ [⟨false, full⟩] }
        (st2, full, true)
      else
        match vaExtractDelta data with
        | some c => vaLines { st with streamingAnswer := full ++ c } (full ++ c) rest
        | none => vaLines st full rest
    else vaLines st full rest

/-- src/unnamed/part_001 lines 260-310: the read loop — each chunk is
decoded with a fresh decoder.decode(value) (no stream option) and split
on newlines; [DONE] returns early. -/
def vaReadLoop : VAState → String → List (List Nat) → VAState
  | st, _, [] => st
  | st, full, chunk :: rest =>
    let text := decodeNoStreamJS chunk
    let r := vaLines st full (splitOnNl text.data)
    if r.2.2 then r.1 else vaReadLoop r.1 r.2.1 rest

/-- src/unnamed/part_001 lines 197-336: generateAnswer.  A missing API
key reports a settings message; otherwise the streaming flags are armed
and the call runs; a caught AbortError returns with no state change (the
flag is cleared by stopStreaming, the user's abort path); any other
failure appends the synthetic assistant error message and clears the
streaming flag. -/
def generateAnswer (st : VAState) (oc : VAOutcome) : VAState :=
  if st.apiKey = "" then
    let m := "Please set your OpenAI API key in the settings to get AI responses."
    { st with
      lastAnswer := m
      conversationHistory := st.conversationHistory ++ [⟨false, m⟩] }
  else
    let st1 := { st with isStreaming := true, streamingAnswer := "", lastAnswer := "" }
    match oc with
    | .abortError => st1
    | .httpFail =>
      { st1 with
        isStreaming := false
        streamingAnswer := ""
        lastAnswer := vaErrorMsg
        conversationHistory := st1.conversationHistory ++ [⟨false, vaErrorMsg⟩] }
    | .netFail =>
      { st1 with
        isStreaming := false
        streamingAnswer := ""
        lastAnswer := vaErrorMsg
        conversationHistory := st1.conversationHistory ++ [⟨false, vaErrorMsg⟩] }
    | .ok chunks => vaReadLoop st1 "" chunks

/-! # Theorems -/

/-! ## Helper lemmas about the aggregator -/

theorem handleResult_committed (st : AggState) (ev : SpeechEvent) :
    (handleResult st ev).committedFinals = st.committedFinals := by
  simp only [handleResult]
  split
  · rfl
  · split <;> rfl

theorem handleResult_ring (st : AggState) (ev : SpeechEvent) :
    (handleResult st ev).recentFinals = st.recentFinals := by
  simp only [handleResult]
  split
  · rfl
  · split <;> rfl

theorem handleResult_pending (st : AggState) (ev : SpeechEvent) :
    (handleResult st ev).pendingFinalUser = st.pendingFinalUser := by
  simp only [handleResult]
  split
  · rfl
  · split <;> rfl

theorem handleResult_questions (st : AggState) (ev : SpeechEvent) :
    (handleResult st ev).questions = st.questions := by
  simp only [handleResult]
  split
  · rfl
  · split <;> rfl

theorem handleResult_timer (st : AggState) (ev : SpeechEvent)
    (h : jsTrim (partitionEvent ev).2 ≠ "") :
    (handleResult st ev).timer = some (jsTrim (partitionEvent ev).2) := by
  have hp2 : (partitionEvent ev).2 ≠ "" := by
    intro he
    apply h
    rw [he]
    rfl
  simp only [handleResult]
  rw [if_neg hp2, if_neg h]

theorem observeSeq_committed (st : AggState) (evs : List SpeechEvent) :
    (observeSeq st evs).committedFinals = st.committedFinals := by
  induction evs generalizing st with
  | nil => rfl
  | cons e es ih =>
    show (observeSeq (handleResult st e) es).committedFinals = _
    rw [ih, handleResult_committed]

theorem observeSeq_ring (st : AggState) (evs : List SpeechEvent) :
    (observeSeq st evs).recentFinals = st.recentFinals := by
  induction evs generalizing st with
  | nil => rfl
  | cons e es ih =>
    show (observeSeq (handleResult st e) es).recentFinals = _
    rw [ih, handleResult_ring]

theorem observeSeq_timer (st : AggState) (evs : List SpeechEvent) (evLast : SpeechEvent)
    (hlast : evs.getLast? = some evLast)
    (hfin : ∀ ev ∈ evs, jsTrim (partitionEvent ev).2 ≠ "") :
    (observeSeq st evs).timer = some (jsTrim (partitionEvent evLast).2) := by
  induction evs generalizing st with
  | nil => simp at hlast
  | cons e es ih =>
    cases es with
    | nil =>
      simp only [List.getLast?_singleton, Option.some.injEq] at hlast
      subst hlast
      exact handleResult_timer st e (hfin e (by simp))
    | cons e2 es2 =>
      show (observeSeq (handleResult st e) (e2 :: es2)).timer = _
      exact ih (handleResult st e) (by simpa using hlast)
        (fun ev hv => hfin ev (List.mem_cons_of_mem _ hv))

theorem isDuplicateFinal_hit (ring : List String) (s : String)
    (h : ring.contains (normalizeFinal s) = true) :
    isDuplicateFinal ring s = (true, ring) := by
  simp only [isDuplicateFinal]
  rw [if_pos h]

theorem isDuplicateFinal_miss (ring : List String) (s : String)
    (h : ring.contains (normalizeFinal s) = false) :
    isDuplicateFinal ring s =
      (false,
        if (ring ++ [normalizeFinal s]).length > 20 then (ring ++ [normalizeFinal s]).tail
        else ring ++ [normalizeFinal s]) := by
  simp only [isDuplicateFinal]
  rw [if_neg (by rw [h]; exact Bool.false_ne_true)]

theorem fireTimer_dup (st : AggState) (c : String) (h : st.timer = some c)
    (hdup : st.recentFinals.contains (normalizeFinal c) = true) :
    fireTimer st = { st with timer := none } := by
  simp [fireTimer, h, isDuplicateFinal_hit st.recentFinals c hdup]

theorem fireTimer_new_committed (st : AggState) (c : String) (h : st.timer = some c)
    (hnew : st.recentFinals.contains (normalizeFinal c) = false) :
    (fireTimer st).committedFinals = st.committedFinals ++ [c] := by
  simp [fireTimer, h, isDuplicateFinal_miss st.recentFinals c hnew]

theorem fireTimer_new_ring (st : AggState) (c : String) (h : st.timer = some c)
    (hnew : st.recentFinals.contains (normalizeFinal c) = false) :
    (fireTimer st).recentFinals = (isDuplicateFinal st.recentFinals c).2 := by
  simp [fireTimer, h, isDuplicateFinal_miss st.recentFinals c hnew]

theorem contains_snoc_self (l : List String) (a : String) : (l ++ [a]).contains a = true := by
  show (l ++ [a]).elem a = true
  simp [List.elem_eq_mem]

theorem isDuplicateFinal_mem (ring : List String) (s : String)
    (h : ring.contains (normalizeFinal s) = false) :
    (isDuplicateFinal ring s).2.contains (normalizeFinal s) = true := by
  rw [isDuplicateFinal_miss ring s h]
  dsimp only
  split
  · rename_i hgt
    cases ring with
    | nil => simp at hgt
    | cons r rs => exact contains_snoc_self rs _
  · exact contains_snoc_self ring _

theorem isDuplicateFinal_length (ring : List String) (s : String) (h : ring.length ≤ 20) :
    (isDuplicateFinal ring s).2.length ≤ 20 := by
  cases hc : ring.contains (normalizeFinal s) with
  | true => rw [isDuplicateFinal_hit ring s hc]; exact h
  | false =>
    rw [isDuplicateFinal_miss ring s hc]
    dsimp only
    split
    · simp only [List.length_tail, List.length_append, List.length_singleton]
      omega
    · rename_i hle
      simp only [List.length_append, List.length_singleton] at hle ⊢
      omega

theorem isDuplicateFinal_evict (ring : List String) (s : String) (h20 : ring.length = 20)
    (hnew : ring.contains (normalizeFinal s) = false) :
    (isDuplicateFinal ring s).2 = ring.tail ++ [normalizeFinal s] := by
  rw [isDuplicateFinal_miss ring s hnew]
  dsimp only
  rw [if_pos (by simp [h20])]
  cases ring with
  | nil => simp at h20
  | cons r rs => rfl

theorem fireTimer_ring_le (st : AggState) (h : st.recentFinals.length ≤ 20) :
    (fireTimer st).recentFinals.length ≤ 20 := by
  match hst : st.timer with
  | none => simpa [fireTimer, hst] using h
  | some c =>
    cases hdup : st.recentFinals.contains (normalizeFinal c) with
    | true => rw [fireTimer_dup st c hst hdup]; exact h
    | false =>
      rw [fireTimer_new_ring st c hst hdup]
      exact isDuplicateFinal_length _ _ h

/-- C3 — Ring bound invariant: inserting into the dedupe ring never grows
it past 20 entries, inserting a 21st normalized string evicts the oldest
(front) entry, and both aggregator operations (the onresult handler and
the timer body) preserve the at-most-20 bound. -/
theorem ring_bound_C3 :
    (∀ ring s, ring.length ≤ 20 → (isDuplicateFinal ring s).2.length ≤ 20) ∧
    (∀ ring s, ring.length = 20 → ring.contains (normalizeFinal s) = false →
       (isDuplicateFinal ring s).2 = ring.tail ++ [normalizeFinal s]) ∧
    (∀ (st : AggState) (ev : SpeechEvent), st.recentFinals.length ≤ 20 →
       (handleResult st ev).recentFinals.length ≤ 20) ∧
    (∀ st : AggState, st.recentFinals.length ≤ 20 →
       (fireTimer st).recentFinals.length ≤ 20) :=
  ⟨isDuplicateFinal_length, isDuplicateFinal_evict,
   fun st ev h => by rw [handleResult_ring]; exact h,
   fireTimer_ring_le⟩

theorem ring_bound_C3_witness :
    (isDuplicateFinal (List.replicate 20 "x") "y").2 =
      (List.replicate 20 "x").tail ++ [normalizeFinal "y"] ∧
    (isDuplicateFinal ["a"] "b").2.length ≤ 20 :=
  ⟨ring_bound_C3.2.1 (List.replicate 20 "x") "y" (by decide) (by decide),
   ring_bound_C3.1 ["a"] "b" (by decide)⟩

/-- C2 — Idempotent dedupe: when the finalization timer fires with a
chunk whose normalized form is already in the ring, the state is left
unchanged except for disarming the timer (nothing is appended to the
pending text, onFinal is not called, question detection is not re-run);
consequently observing the same final text in two debounce windows
commits it exactly once. -/
theorem duplicate_suppression_C2 :
    (∀ (st : AggState) (c : String), st.timer = some c →
       st.recentFinals.contains (normalizeFinal c) = true →
       fireTimer st = { st with timer := none }) ∧
    (∀ (st : AggState) (ev : SpeechEvent) (c : String),
       jsTrim (partitionEvent ev).2 = c → c ≠ "" →
       st.recentFinals.contains (normalizeFinal c) = false →
       (feedFinal st ev).committedFinals = st.committedFinals ++ [c] ∧
       (feedFinal (feedFinal st ev) ev).committedFinals = st.committedFinals ++ [c]) := by
  constructor
  · exact fireTimer_dup
  · intro st ev c hc hne hnew
    have htimer : (handleResult st ev).timer = some c := by
      rw [handleResult_timer st ev (by rw [hc]; exact hne), hc]
    have hring1 : (handleResult st ev).recentFinals = st.recentFinals :=
      handleResult_ring st ev
    have hcom1 : (feedFinal st ev).committedFinals = st.committedFinals ++ [c] := by
      show (fireTimer (handleResult st ev)).committedFinals = _
      rw [fireTimer_new_committed _ c htimer (by rw [hring1]; exact hnew),
        handleResult_committed]
    refine ⟨hcom1, ?_⟩
    have hring2 : (feedFinal st ev).recentFinals.contains (normalizeFinal c) = true := by
      show (fireTimer (handleResult st ev)).recentFinals.contains _ = true
      rw [fireTimer_new_ring _ c htimer (by rw [hring1]; exact hnew), hring1]
      exact isDuplicateFinal_mem st.recentFinals c hnew
    have htimer2 : (handleResult (feedFinal st ev) ev).timer = some c := by
      rw [handleResult_timer _ ev (by rw [hc]; exact hne), hc]
    show (fireTimer (handleResult (feedFinal st ev) ev)).committedFinals = _
    rw [fireTimer_dup _ c htimer2 (by rw [handleResult_ring]; exact hring2)]
    show (handleResult (feedFinal st ev) ev).committedFinals = _
    rw [handleResult_committed]
    exact hcom1

theorem duplicate_suppression_C2_witness :
    (feedFinal (feedFinal ⟨"", "", [], none, [], []⟩
        ⟨0, [⟨true, some "What is the weather today"⟩]⟩)
        ⟨0, [⟨true, some "What is the weather today"⟩]⟩).committedFinals =
      AggState.committedFinals ⟨"", "", [], none, [], []⟩ ++ ["What is the weather today"] :=
  (duplicate_suppression_C2.2 ⟨"", "", [], none, [], []⟩
    ⟨0, [⟨true, some "What is the weather today"⟩]⟩ "What is the weather today"
    (by decide) (by decide) (by decide)).2

/-- C1 — Debounce coalescing: across a burst of onresult callbacks with
non-empty final chunks inside one debounce window (each callback
clearTimeout-and-restarts the 1500 ms silence timer before it fires),
no chunk is committed by the callbacks themselves, the armed timer
always carries the last callback's trimmed chunk, and when the timer
finally fires uninterrupted only that last chunk's content is delivered
via onFinal (or nothing, when it is a ring duplicate). -/
theorem debounce_coalescing_C1 (st : AggState) (evs : List SpeechEvent)
    (evLast : SpeechEvent) (hlast : evs.getLast? = some evLast)
    (hfin : ∀ ev ∈ evs, jsTrim (partitionEvent ev).2 ≠ "") :
    (∀ ev ∈ evs, ∀ s : AggState, (handleResult s ev).committedFinals = s.committedFinals) ∧
    (observeSeq st evs).timer = some (jsTrim (partitionEvent evLast).2) ∧
    (observeSeq st evs).committedFinals = st.committedFinals ∧
    (fireTimer (observeSeq st evs)).committedFinals =
      (if st.recentFinals.contains (normalizeFinal (jsTrim (partitionEvent evLast).2)) = true
       then st.committedFinals
       else st.committedFinals ++ [jsTrim (partitionEvent evLast).2]) := by
  refine ⟨fun ev _ s => handleResult_committed s ev,
          observeSeq_timer st evs evLast hlast hfin,
          observeSeq_committed st evs, ?_⟩
  cases hdup : st.recentFinals.contains (normalizeFinal (jsTrim (partitionEvent evLast).2)) with
  | true =>
    rw [fireTimer_dup (observeSeq st evs) _ (observeSeq_timer st evs evLast hlast hfin)
      (by rw [observeSeq_ring]; exact hdup)]
    simpa using observeSeq_committed st evs
  | false =>
    rw [fireTimer_new_committed (observeSeq st evs) _
      (observeSeq_timer st evs evLast hlast hfin)
      (by rw [observeSeq_ring]; exact hdup)]
    rw [observeSeq_committed st evs]
    simp

theorem debounce_coalescing_C1_witness :
    (fireTimer (observeSeq ⟨"", "", [], none, [], []⟩
        [⟨0, [⟨true, some "Tell me something"⟩]⟩,
         ⟨0, [⟨true, some "What is the weather today"⟩]⟩])).committedFinals =
      ["What is the weather today"] := by
  have h := (debounce_coalescing_C1 ⟨"", "", [], none, [], []⟩
    [⟨0, [⟨true, some "Tell me something"⟩]⟩,
     ⟨0, [⟨true, some "What is the weather today"⟩]⟩]
    ⟨0, [⟨true, some "What is the weather today"⟩]⟩
    (by decide) (by decide)).2.2.2
  rw [h]
  decide

/-- C4 corrected at a concrete input: the component variant of
endsWithQuestion returns true on a text whose first token is not a lead
word (the trailing question mark alone decides it), so the claimed
if-and-only-if characterisation fails there. -/
theorem question_detection_counterexample_C4 :
    endsWithQuestionCmp "Hello there?" = true ∧
    (questionLeadWords.contains (strToLower (firstToken (jsTrim "Hello there?"))) &&
      decide ((jsTrim "Hello there?").length > 10)) = false := by
  decide

/-- C4 (amended) — Question detection: the useSpeechRecognition variant
returns true exactly when the first whitespace token of the trimmed
text, lower-cased, is in the fixed lead-word set and the trimmed length
exceeds 10; the SpeechAIAssistantChatGpt variant additionally returns
true whenever the trimmed text ends in ?, ？ or ！; both return true on
"What is the weather today" and false on "ok" and "Nice". -/
theorem question_detection_C4 :
    (∀ text, endsWithQuestionRec text =
       (questionLeadWords.contains (strToLower (firstToken (jsTrim text))) &&
        decide ((jsTrim text).length > 10))) ∧
    (∀ text, endsWithQuestionCmp text =
       (endsInQTerminal (jsTrim text) ||
        (questionLeadWords.contains (strToLower (firstToken (jsTrim text))) &&
         decide ((jsTrim text).length > 10)))) ∧
    endsWithQuestionRec "What is the weather today" = true ∧
    endsWithQuestionCmp "What is the weather today" = true ∧
    endsWithQuestionRec "ok" = false ∧
    endsWithQuestionCmp "ok" = false ∧
    endsWithQuestionRec "Nice" = false ∧
    endsWithQuestionCmp "Nice" = false := by
  refine ⟨?_, ?_, by decide, by decide, by decide, by decide, by decide, by decide⟩
  · intro text
    simp only [endsWithQuestionRec]
    split
    · rename_i h
      rw [h]
      decide
    · rfl
  · intro text
    simp only [endsWithQuestionCmp]
    split
    · rename_i h
      rw [h]
      decide
    · cases hq : endsInQTerminal (jsTrim text) <;> simp [hq]

theorem question_detection_C4_witness :
    endsWithQuestionRec "Who won the match yesterday" = true :=
  (question_detection_C4.1 "Who won the match yesterday").trans (by decide)

/-! ## Helper lemmas about extractText precedence -/

theorem extractTextCmp_json (p d : String) (h : jsonDeltaCmp p = some d) :
    extractTextCmp p = d := by
  simp only [extractTextCmp, h]

theorem extractTextCmp_idx (p g s : String) (h1 : jsonDeltaCmp p = none)
    (h2 : matchIdxQuoted p = some g) (h3 : parseQuoted g = some s) (h4 : s ≠ "") :
    extractTextCmp p = s := by
  simp only [extractTextCmp, h1, h2, h3]
  rw [if_neg h4]

theorem extractTextCmp_quoted (p s : String) (h1 : jsonDeltaCmp p = none)
    (h2 : ∀ g, matchIdxQuoted p = some g → ∀ t, parseQuoted g = some t → t = "")
    (h3 : parseQuoted p = some s) (h4 : s ≠ "") :
    extractTextCmp p = s := by
  have hs3 : extractTextCmpStep3 p = s := by
    simp only [extractTextCmpStep3, h3]
    rw [if_neg h4]
  simp only [extractTextCmp, h1]
  cases hm : matchIdxQuoted p with
  | none => exact hs3
  | some g =>
    dsimp only
    cases hp : parseQuoted g with
    | none => exact hs3
    | some t =>
      dsimp only
      rw [h2 g hm t hp, if_pos rfl]
      exact hs3

theorem extractTextCmp_fallback (p : String) (h1 : jsonDeltaCmp p = none)
    (h2 : ∀ g, matchIdxQuoted p = some g → ∀ t, parseQuoted g = some t → t = "")
    (h3 : ∀ t, parseQuoted p = some t → t = "") :
    extractTextCmp p = (if isMetaFrame p then "" else if isProse p then p else "") := by
  have htail : extractTextCmpTailSteps p =
      (if isMetaFrame p then "" else if isProse p then p else "") := rfl
  have hs3 : extractTextCmpStep3 p =
      (if isMetaFrame p then "" else if isProse p then p else "") := by
    simp only [extractTextCmpStep3]
    cases hp : parseQuoted p with
    | none => exact htail
    | some t =>
      dsimp only
      rw [h3 t hp, if_pos rfl]
      exact htail
  simp only [extractTextCmp, h1]
  cases hm : matchIdxQuoted p with
  | none => exact hs3
  | some g =>
    dsimp only
    cases hp : parseQuoted g with
    | none => exact hs3
    | some t =>
      dsimp only
      rw [h2 g hm t hp, if_pos rfl]
      exact hs3

/-- C5 corrected at a concrete input: on the payload 0:"" every strategy
before plain-prose passthrough yields nothing or the empty string, and
prose passthrough would yield the non-empty payload itself, yet the
useStreamingAI extractText returns "" — it commits to the index-quoted
pattern once matched instead of stopping at the first method that yields
a non-empty string (the component variant falls through to prose). -/
theorem decoder_precedence_counterexample_C5 :
    extractTextHook "0:\"\"" = "" ∧
    jsonDeltaHook "0:\"\"" = none ∧
    (matchIdxQuoted "0:\"\"").bind parseQuoted = some "" ∧
    quotedShape "0:\"\"" = none ∧
    isProse "0:\"\"" = true ∧
    extractTextCmp "0:\"\"" = "0:\"\"" ∧
    ¬ extractTextHook "0:\"\"" = "0:\"\"" := by
  decide

/-- C5 (amended) — Decoder round-trip: feeding the two newline-terminated
lines 0:"Hello" and 0:" world" yields exactly the deltas "Hello" then
" world" (concatenating to "Hello world") in both read loops; the
component extractText applies the stated precedence — JSON delta field,
then index-prefixed quoted string, then bare quoted string, then
plain-prose passthrough — stopping at the first method that yields a
non-empty string, while the useStreamingAI variant returns the
index-quoted match unconditionally (even when it unescapes to the empty
string, as the counterexample shows). -/
theorem decoder_roundtrip_C5 :
    runDecodeTextCmp ["0:\"Hello\"\n", "0:\" world\"\n"] = ["Hello", " world"] ∧
    runDecodeTextHook ["0:\"Hello\"\n", "0:\" world\"\n"] = ["Hello", " world"] ∧
    "Hello" ++ " world" = "Hello world" ∧
    (∀ p d, jsonDeltaCmp p = some d → extractTextCmp p = d) ∧
    (∀ p g s, jsonDeltaCmp p = none → matchIdxQuoted p = some g →
       parseQuoted g = some s → s ≠ "" → extractTextCmp p = s) ∧
    (∀ p s, jsonDeltaCmp p = none →
       (∀ g, matchIdxQuoted p = some g → ∀ t, parseQuoted g = some t → t = "") →
       parseQuoted p = some s → s ≠ "" → extractTextCmp p = s) ∧
    (∀ p, jsonDeltaCmp p = none →
       (∀ g, matchIdxQuoted p = some g → ∀ t, parseQuoted g = some t → t = "") →
       (∀ t, parseQuoted p = some t → t = "") →
       extractTextCmp p = (if isMetaFrame p then "" else if isProse p then p else "")) :=
  ⟨by decide, by decide, by decide, extractTextCmp_json, extractTextCmp_idx,
   extractTextCmp_quoted, extractTextCmp_fallback⟩

theorem decoder_roundtrip_C5_witness :
    extractTextCmp "0:\"Hello\"" = "Hello" :=
  decoder_roundtrip_C5.2.2.2.2.1 "0:\"Hello\"" "\"Hello\"" "Hello"
    (by decide) (by decide) (by decide) (by decide)

/-- C6 — Metadata frames are silently dropped: the line f:{"id":"1"}
yields the empty delta in both extractText variants (and no delta from
the per-line handler), and a payload failing every extraction strategy
always yields the empty string — the embedding is a total function, the
counterpart of "never throws" (JSON.parse failures are caught and
surface as none). -/
theorem metadata_dropped_C6 :
    extractTextCmp "f:\x7b\"id\":\"1\"\x7d" = "" ∧
    extractTextHook "f:\x7b\"id\":\"1\"\x7d" = "" ∧
    processLineCmp "f:\x7b\"id\":\"1\"\x7d" = none ∧
    isMetaFrame "f:\x7b\"id\":\"1\"\x7d" = true ∧
    (∀ p, jsonDeltaCmp p = none →
       (∀ g, matchIdxQuoted p = some g → ∀ t, parseQuoted g = some t → t = "") →
       (∀ t, parseQuoted p = some t → t = "") →
       isProse p = false → extractTextCmp p = "") ∧
    (∀ p, jsonDeltaHook p = none → matchIdxQuoted p = none → quotedShape p = none →
       isProse p = false → extractTextHook p = "") := by
  refine ⟨by decide, by decide, by decide, by decide, ?_, ?_⟩
  · intro p h1 h2 h3 hpr
    rw [extractTextCmp_fallback p h1 h2 h3, hpr]
    split <;> simp
  · intro p h1 h2 h3 hpr
    simp only [extractTextHook, h1, h2, h3, hpr]
    rw [if_neg Bool.false_ne_true]

theorem metadata_dropped_C6_witness :
    extractTextHook "e:\x7b\x7d" = "" :=
  metadata_dropped_C6.2.2.2.2.2 "e:\x7b\x7d" (by decide) (by decide) (by decide) (by decide)

/-! ## Helper lemmas about the incremental UTF-8 decoder -/

theorem utf8DecodeChunk_out (pend : List Nat) (out : List Char) (bytes : List Nat) :
    bytes.foldl (fun acc b => let r := utf8Step acc.1 b; (r.1, acc.2 ++ r.2)) (pend, out)
      = ((utf8DecodeChunk pend bytes).1, out ++ (utf8DecodeChunk pend bytes).2) := by
  induction bytes generalizing pend out with
  | nil => simp [utf8DecodeChunk]
  | cons b bs ih =>
    show List.foldl _ ((utf8Step pend b).1, out ++ (utf8Step pend b).2) bs = _
    rw [ih]
    have h2 : utf8DecodeChunk pend (b :: bs)
        = ((utf8DecodeChunk (utf8Step pend b).1 bs).1,
           (utf8Step pend b).2 ++ (utf8DecodeChunk (utf8Step pend b).1 bs).2) := by
      show List.foldl _ ((utf8Step pend b).1, [] ++ (utf8Step pend b).2) bs = _
      rw [List.nil_append, ih]
    rw [h2]
    simp [List.append_assoc]

theorem utf8DecodeChunk_cons (pend : List Nat) (b : Nat) (bs : List Nat) :
    utf8DecodeChunk pend (b :: bs)
      = ((utf8DecodeChunk (utf8Step pend b).1 bs).1,
         (utf8Step pend b).2 ++ (utf8DecodeChunk (utf8Step pend b).1 bs).2) := by
  show List.foldl _ ((utf8Step pend b).1, [] ++ (utf8Step pend b).2) bs = _
  rw [List.nil_append, utf8DecodeChunk_out]

theorem utf8DecodeChunk_append (pend : List Nat) (xs ys : List Nat) :
    utf8DecodeChunk pend (xs ++ ys)
      = ((utf8DecodeChunk (utf8DecodeChunk pend xs).1 ys).1,
         (utf8DecodeChunk pend xs).2 ++ (utf8DecodeChunk (utf8DecodeChunk pend xs).1 ys).2) := by
  induction xs generalizing pend with
  | nil => simp [utf8DecodeChunk]
  | cons x xs ih =>
    rw [List.cons_append, utf8DecodeChunk_cons, ih, utf8DecodeChunk_cons pend x xs]
    dsimp only
    simp [List.append_assoc]

theorem utf8_decode_bytes1 (n : Nat) (h : n < 0x80) :
    utf8DecodeChunk [] [n] = ([], [Char.ofNat n]) := by
  have hb : utf8Step [] n = ([], [Char.ofNat n]) := by
    simp only [utf8Step, utf8StepEmpty]
    rw [if_pos h]
  rw [utf8DecodeChunk_cons, hb]
  rfl

theorem utf8_decode_bytes2 (n : Nat) (h1 : 0x80 ≤ n) (h2 : n < 0x800) :
    utf8DecodeChunk [] [0xC0 + n / 64, 0x80 + n % 64] = ([], [Char.ofNat n]) := by
  have hb0 : utf8Step [] (0xC0 + n / 64) = ([0xC0 + n / 64], []) := by
    simp only [utf8Step, utf8StepEmpty]
    rw [if_neg (by omega), if_pos (by omega)]
  have hcont : contB (0x80 + n % 64) = true := by
    simp only [contB, Bool.and_eq_true, decide_eq_true_eq]
    omega
  have hb1 : utf8Step [0xC0 + n / 64] (0x80 + n % 64) = ([], [Char.ofNat n]) := by
    simp only [utf8Step]
    rw [if_pos (show 0xC0 + n / 64 ≤ 0xDF by omega), if_pos hcont]
    have harith : (0xC0 + n / 64 - 0xC0) * 64 + (0x80 + n % 64 - 0x80) = n := by omega
    rw [harith]
  rw [utf8DecodeChunk_cons, hb0]
  dsimp only
  rw [utf8DecodeChunk_cons, hb1]
  rfl

theorem utf8_decode_bytes3 (n : Nat) (h1 : 0x800 ≤ n) (h2 : n < 0x10000)
    (hs : n < 0xD800 ∨ 0xDFFF < n) :
    utf8DecodeChunk [] [0xE0 + n / 4096, 0x80 + (n / 64) % 64, 0x80 + n % 64]
      = ([], [Char.ofNat n]) := by
  have hb0 : utf8Step [] (0xE0 + n / 4096) = ([0xE0 + n / 4096], []) := by
    simp only [utf8Step, utf8StepEmpty]
    rw [if_neg (by omega), if_neg (by omega), if_pos (by omega)]
  have hrange : contRangeOk (0xE0 + n / 4096) (0x80 + (n / 64) % 64) = true := by
    simp only [contRangeOk, contB]
    split_ifs with hE0 hED hF0 hF4 <;>
      simp only [Bool.and_eq_true, decide_eq_true_eq] <;> omega
  have hb1 : utf8Step [0xE0 + n / 4096] (0x80 + (n / 64) % 64)
      = ([0xE0 + n / 4096, 0x80 + (n / 64) % 64], []) := by
    simp only [utf8Step]
    rw [if_neg (by omega), if_pos hrange]
  have hcont : contB (0x80 + n % 64) = true := by
    simp only [contB, Bool.and_eq_true, decide_eq_true_eq]
    omega
  have hb2 : utf8Step [0xE0 + n / 4096, 0x80 + (n / 64) % 64] (0x80 + n % 64)
      = ([], [Char.ofNat n]) := by
    simp only [utf8Step]
    rw [if_pos (show 0xE0 + n / 4096 ≤ 0xEF by omega), if_pos hcont]
    have harith : (0xE0 + n / 4096 - 0xE0) * 4096 + (0x80 + (n / 64) % 64 - 0x80) * 64 +
        (0x80 + n % 64 - 0x80) = n := by omega
    rw [harith]
  rw [utf8DecodeChunk_cons, hb0]
  dsimp only
  rw [utf8DecodeChunk_cons, hb1]
  dsimp only
  rw [utf8DecodeChunk_cons, hb2]
  rfl

theorem utf8_decode_bytes4 (n : Nat) (h1 : 0x10000 ≤ n) (h2 : n < 0x110000) :
    utf8DecodeChunk []
        [0xF0 + n / 262144, 0x80 + (n / 4096) % 64, 0x80 + (n / 64) % 64, 0x80 + n % 64]
      = ([], [Char.ofNat n]) := by
  have hb0 : utf8Step [] (0xF0 + n / 262144) = ([0xF0 + n / 262144], []) := by
    simp only [utf8Step, utf8StepEmpty]
    rw [if_neg (by omega), if_neg (by omega), if_neg (by omega), if_pos (by omega)]
  have hrange : contRangeOk (0xF0 + n / 262144) (0x80 + (n / 4096) % 64) = true := by
    simp only [contRangeOk, contB]
    split_ifs with hE0 hED hF0 hF4 <;>
      simp only [Bool.and_eq_true, decide_eq_true_eq] <;> omega
  have hb1 : utf8Step [0xF0 + n / 262144] (0x80 + (n / 4096) % 64)
      = ([0xF0 + n / 262144, 0x80 + (n / 4096) % 64], []) := by
    simp only [utf8Step]
    rw [if_neg (by omega), if_pos hrange]
  have hcont2 : contB (0x80 + (n / 64) % 64) = true := by
    simp only [contB, Bool.and_eq_true, decide_eq_true_eq]
    omega
  have hb2 : utf8Step [0xF0 + n / 262144, 0x80 + (n / 4096) % 64] (0x80 + (n / 64) % 64)
      = ([0xF0 + n / 262144, 0x80 + (n / 4096) % 64, 0x80 + (n / 64) % 64], []) := by
    simp only [utf8Step]
    rw [if_neg (by omega), if_pos hcont2]
  have hcont3 : contB (0x80 + n % 64) = true := by
    simp only [contB, Bool.and_eq_true, decide_eq_true_eq]
    omega
  have hb3 : utf8Step [0xF0 + n / 262144, 0x80 + (n / 4096) % 64, 0x80 + (n / 64) % 64]
      (0x80 + n % 64) = ([], [Char.ofNat n]) := by
    simp only [utf8Step]
    rw [if_pos hcont3]
    have harith : (0xF0 + n / 262144 - 0xF0) * 262144 +
        (0x80 + (n / 4096) % 64 - 0x80) * 4096 +
        (0x80 + (n / 64) % 64 - 0x80) * 64 + (0x80 + n % 64 - 0x80) = n := by omega
    rw [harith]
  rw [utf8DecodeChunk_cons, hb0]
  dsimp only
  rw [utf8DecodeChunk_cons, hb1]
  dsimp only
  rw [utf8DecodeChunk_cons, hb2]
  dsimp only
  rw [utf8DecodeChunk_cons, hb3]
  rfl

theorem utf8_onechar (c : Char) : utf8DecodeChunk [] (utf8EncodeChar c) = ([], [c]) := by
  have hv : c.val.toNat < 0xD800 ∨ (0xDFFF < c.val.toNat ∧ c.val.toNat < 0x110000) := c.valid
  have hofn : Char.ofNat c.val.toNat = c := Char.ofNat_toNat c
  by_cases h1 : c.val.toNat < 0x80
  · have he : utf8EncodeChar c = [c.val.toNat] := by
      simp only [utf8EncodeChar]
      rw [if_pos h1]
    rw [he, utf8_decode_bytes1 _ h1, hofn]
  · by_cases h2 : c.val.toNat < 0x800
    · have he : utf8EncodeChar c = [0xC0 + c.val.toNat / 64, 0x80 + c.val.toNat % 64] := by
        simp only [utf8EncodeChar]
        rw [if_neg h1, if_pos h2]
      rw [he, utf8_decode_bytes2 _ (by omega) h2, hofn]
    · by_cases h3 : c.val.toNat < 0x10000
      · have he : utf8EncodeChar c = [0xE0 + c.val.toNat / 4096,
            0x80 + (c.val.toNat / 64) % 64, 0x80 + c.val.toNat % 64] := by
          simp only [utf8EncodeChar]
          rw [if_neg h1, if_neg h2, if_pos h3]
        rw [he, utf8_decode_bytes3 _ (by omega) h3 (by omega), hofn]
      · have h4 : c.val.toNat < 0x110000 := by omega
        have he : utf8EncodeChar c = [0xF0 + c.val.toNat / 262144,
            0x80 + (c.val.toNat / 4096) % 64, 0x80 + (c.val.toNat / 64) % 64,
            0x80 + c.val.toNat % 64] := by
          simp only [utf8EncodeChar]
          rw [if_neg h1, if_neg h2, if_neg h3]
        rw [he, utf8_decode_bytes4 _ (by omega) h4, hofn]

theorem utf8DecodeChunk_encode (cs : List Char) :
    utf8DecodeChunk [] ((cs.map utf8EncodeChar).flatten) = ([], cs) := by
  induction cs with
  | nil => rfl
  | cons c cs ih =>
    simp only [List.map_cons, List.flatten_cons]
    rw [utf8DecodeChunk_append, utf8_onechar]
    dsimp only
    rw [ih]
    rfl

/-- C7 corrected at a concrete input: the streamAI / useStreamingAI read
loops decode with decoder.decode(value, stream: true) and tolerate any
split (second conjunct), but the getAIResponse loop in
src/unnamed/part_000 (and part_001 generateAnswer) decode each chunk
with a fresh decoder.decode(value): splitting the two-byte character
U+00E9 between chunks produces two replacement characters instead of
the character. -/
theorem utf8_split_counterexample_C7 :
    utf8Encode "é" = [195, 169] ∧
    streamDecode2 [195] [169] = "é" ∧
    decodeNoStreamJS [195] ++ decodeNoStreamJS [169] = "��" ∧
    decodeNoStreamJS [195] ++ decodeNoStreamJS [169] ≠ "é" := by
  decide

/-- C7 (amended) — Multi-byte split tolerance for the stream:true read
loops: for every string and every split of its UTF-8 encoding into two
chunks at an arbitrary byte boundary (including inside a multi-byte
character), decoding the chunks incrementally with the carried decoder
state reproduces the string exactly, equals the one-chunk decode, and
leaves no pending bytes; the part_000/part_001 per-chunk decode variant
corrupts such splits (see the counterexample). -/
theorem utf8_split_C7 (s : String) (l1 l2 : List Nat) (h : l1 ++ l2 = utf8Encode s) :
    streamDecode2 l1 l2 = s ∧
    streamDecode2 l1 l2 = decodeOneShot (utf8Encode s) ∧
    (utf8DecodeChunk (utf8DecodeChunk [] l1).1 l2).1 = [] := by
  have hfull : utf8DecodeChunk [] (l1 ++ l2) = ([], s.data) := by
    rw [h]
    exact utf8DecodeChunk_encode s.data
  rw [utf8DecodeChunk_append] at hfull
  have h1 := congrArg Prod.fst hfull
  have h2 := congrArg Prod.snd hfull
  dsimp only at h1 h2
  have hstream : streamDecode2 l1 l2 = s := by
    show (⟨(utf8DecodeChunk [] l1).2 ++
      (utf8DecodeChunk (utf8DecodeChunk [] l1).1 l2).2⟩ : String) = s
    rw [h2]
  have hone : decodeOneShot (utf8Encode s) = s := by
    show (⟨(utf8DecodeChunk [] ((s.data.map utf8EncodeChar).flatten)).2⟩ : String) = s
    rw [utf8DecodeChunk_encode]
  exact ⟨hstream, hstream.trans hone.symm, h1⟩

theorem utf8_split_C7_witness : streamDecode2 [195] [169] = "é" :=
  (utf8_split_C7 "é" [195] [169] (by decide)).1

/-! ## Helper lemmas about abort and the busy guard -/

theorem readLoopCmp_take (acc : List String × List Nat × List Char)
    (chunks chunks2 : List (List Nat)) (k : Nat) (h : chunks.take k = chunks2.take k) :
    readLoopCmp acc chunks (some k) = readLoopCmp acc chunks2 (some k) := by
  induction k generalizing acc chunks chunks2 with
  | zero => cases chunks <;> cases chunks2 <;> rfl
  | succ n ih =>
    cases chunks with
    | nil =>
      cases chunks2 with
      | nil => rfl
      | cons c2 cs2 => simp [List.take] at h
    | cons c cs =>
      cases chunks2 with
      | nil => simp [List.take] at h
      | cons c2 cs2 =>
        simp only [List.take, List.cons.injEq] at h
        obtain ⟨rfl, h2⟩ := h
        show readLoopCmp _ cs (some n) = readLoopCmp _ cs2 (some n)
        exact ih _ _ _ h2

/-- C8 — Abort semantics: useStreamingAI.abort synchronously clears the
busy flag and drops the controller; a streamAI call whose read is
aborted at position k ends with isAnswering false (the finally clause),
and its entire result — in particular the transcript the deltas were
appended into — is independent of any bytes the network would have
delivered after the abort, i.e. no further delta is ever appended for
that call. -/
theorem abort_semantics_C8 :
    (∀ hs : HookState, hookAbort hs = { isAnswering := false, controllerSet := false }) ∧
    (∀ (st : OrchState) (chunks : List (List Nat)) (k : Nat),
       (streamAICall st (.abortedAt k chunks)).isAnswering = false) ∧
    (∀ (acc : List String × List Nat × List Char) (chunks chunks2 : List (List Nat))
       (k : Nat), chunks.take k = chunks2.take k →
       readLoopCmp acc chunks (some k) = readLoopCmp acc chunks2 (some k)) ∧
    (∀ (st : OrchState) (chunks chunks2 : List (List Nat)) (k : Nat),
       chunks.take k = chunks2.take k →
       streamAICall st (.abortedAt k chunks) = streamAICall st (.abortedAt k chunks2)) := by
  refine ⟨fun hs => rfl, fun st chunks k => rfl, readLoopCmp_take, ?_⟩
  intro st chunks chunks2 k h
  simp only [streamAICall]
  rw [readLoopCmp_take _ _ _ _ h]

theorem abort_semantics_C8_witness :
    streamAICall ⟨false, "", "", [], none, false⟩ (.abortedAt 1 [[48], [97]])
      = streamAICall ⟨false, "", "", [], none, false⟩ (.abortedAt 1 [[48], [98]]) :=
  abort_semantics_C8.2.2.2 ⟨false, "", "", [], none, false⟩ [[48], [97]] [[48], [98]] 1
    (by decide)

/-- C9 corrected at a concrete input: a failed remote call in the
component's streamAI (non-2xx or missing body) leaves the transcript
unchanged — no synthetic assistant error message is appended there, the
thrown error propagates to the caller and only the finally clause clears
the busy flag and the controller. -/
theorem remote_failure_counterexample_C9 :
    (streamAICall ⟨false, "", "", [⟨Role.system, SYSTEM_PROMPT⟩], none, false⟩
        .failure).transcript = [⟨Role.system, SYSTEM_PROMPT⟩] ∧
    (streamAICall ⟨false, "", "", [⟨Role.system, SYSTEM_PROMPT⟩], none, false⟩
        .failure).isAnswering = false :=
  ⟨rfl, rfl⟩

/-- C9 (amended) — Remote-call failure handling: in the VoiceAssistant
generateAnswer, a non-2xx response or network exception appends the
synthetic assistant error message and clears the streaming flag, while a
caught AbortError (the user's abort) appends nothing; in the component's
streamAI a failure merely clears the in-flight flag and controller
(finally) without appending any message (see the counterexample). -/
theorem remote_failure_C9 :
    (∀ st : VAState, st.apiKey ≠ "" →
       generateAnswer st .httpFail =
         { st with
           isStreaming := false
           streamingAnswer := ""
           lastAnswer := vaErrorMsg
           conversationHistory := st.conversationHistory ++ [⟨false, vaErrorMsg⟩] }) ∧
    (∀ st : VAState, st.apiKey ≠ "" →
       generateAnswer st .netFail =
         { st with
           isStreaming := false
           streamingAnswer := ""
           lastAnswer := vaErrorMsg
           conversationHistory := st.conversationHistory ++ [⟨false, vaErrorMsg⟩] }) ∧
    (∀ st : VAState, st.apiKey ≠ "" →
       generateAnswer st .abortError =
         { st with isStreaming := true, streamingAnswer := "", lastAnswer := "" } ∧
       (generateAnswer st .abortError).conversationHistory = st.conversationHistory) ∧
    (∀ st : OrchState,
       streamAICall st .failure =
         { st with isAnswering := false, controllerSet := false }) := by
  refine ⟨?_, ?_, ?_, fun st => rfl⟩
  · intro st h
    simp only [generateAnswer]
    rw [if_neg h]
  · intro st h
    simp only [generateAnswer]
    rw [if_neg h]
  · intro st h
    simp only [generateAnswer]
    rw [if_neg h]
    exact ⟨rfl, rfl⟩

theorem remote_failure_C9_witness :
    (generateAnswer ⟨[], "", "", false, "sk-test"⟩ .httpFail).conversationHistory
      = [⟨false, vaErrorMsg⟩] := by
  rw [remote_failure_C9.1 ⟨[], "", "", false, "sk-test"⟩ (by decide)]
  rfl

/-- C10 — Busy-guard no-op: while isAnswering is true, answerNow returns
immediately — the state (transcript, interim and pending buffers
included) is unchanged and no request is issued — and the useStreamingAI
stream call likewise does nothing and emits no deltas. -/
theorem busy_guard_C10 :
    (∀ (st : OrchState) (ov : Option String), st.isAnswering = true →
       answerNow st ov = (st, none)) ∧
    (∀ (hs : HookState) (oc : CallOutcome), hs.isAnswering = true →
       hookStream hs oc = (hs, [])) := by
  constructor
  · intro st ov h
    simp only [answerNow]
    rw [if_pos h]
  · intro hs oc h
    simp only [hookStream]
    rw [if_pos h]

theorem busy_guard_C10_witness :
    answerNow ⟨true, "hi", "pending words", [⟨Role.system, SYSTEM_PROMPT⟩], none, true⟩
        (some "What is it")
      = (⟨true, "hi", "pending words", [⟨Role.system, SYSTEM_PROMPT⟩], none, true⟩, none) :=
  busy_guard_C10.1 ⟨true, "hi", "pending words", [⟨Role.system, SYSTEM_PROMPT⟩], none, true⟩
    (some "What is it") rfl
